import Mathlib

/-
Verification of the generate-validate-repair core of `app.py` (parser
conversion tool).  The definitions below are a shallow embedding of the
Python source: text is modelled as `String` / `List Char` (ASCII scope:
the inputs handled by the tool are ASCII identifiers, URLs and source
text), the external completion endpoint and the syntax validator
(`ast.parse`) are oracle parameters, and exceptions are modelled with
`Except`.
-/

/- Python `str.strip()` whitespace set (ASCII part). -/
def isPySpace (c : Char) : Bool :=
  (c == ' ') || (c == '\t') || (c == '\n') || (c == '\r') || (c == '\x0b') || (c == '\x0c')

/- Python `str.strip()`: drop leading and trailing whitespace. -/
def pyStrip (l : List Char) : List Char :=
  (((l.dropWhile isPySpace).reverse.dropWhile isPySpace).reverse)

/- The two alternatives of the regex in
`re.sub` of the pattern (triple backtick + "python" + newline, or triple
backtick alone) with the empty replacement (app.py line 170). -/
def fencePy : List Char := "```python\n".data

def fence3 : List Char := "```".data

/- The `re.sub` above: scan left to right; at each
position try the first alternative, then the second; on a match emit
nothing and continue after the match, otherwise emit the character.
Fuelled so that the kernel can evaluate it; `fuel = l.length` always
suffices because every step consumes at least one character. -/
def subFencesAux : Nat → List Char → List Char
  | 0, l => l
  | _ + 1, [] => []
  | fuel + 1, c :: rest =>
    if fencePy.isPrefixOf (c :: rest) then subFencesAux fuel (rest.drop 9)
    else if fence3.isPrefixOf (c :: rest) then subFencesAux fuel (rest.drop 2)
    else c :: subFencesAux fuel rest

def subFences (l : List Char) : List Char := subFencesAux l.length l

/- app.py line 170: the fence-stripping `re.sub` followed by `.strip()`. -/
def cleanCode (s : String) : String := String.mk (pyStrip (subFences s.data))

/- No three consecutive backticks anywhere (hence no fence markup:
both regex alternatives start with three backticks). -/
def noTriple : List Char → Bool
  | [] => true
  | c :: rest => !(fence3.isPrefixOf (c :: rest)) && noTriple rest

/- Number of leading backticks. -/
def leadingBT : List Char → Nat
  | [] => 0
  | c :: rest => if c = '\x60' then leadingBT rest + 1 else 0

/- Python truthiness test `if not python_code` on the return value of the client: `None` and the empty string are falsy. -/
def pyFalsy : Option String → Bool
  | none => true
  | some s => s == ""

/- Python str-formatting of a value that may be `None` (f-strings render
`None` as "None"). -/
def optStr : Option String → String
  | none => "None"
  | some s => s

/- ### `to_snake_case` (app.py lines 25-29) -/

/- First pass: `re.sub` of the pattern (.)([A-Z][a-z]+) with replacement
group1 + underscore + group2.
`.` matches anything but a newline; `[a-z]+` is greedy; scanning
continues after each match.  Fuelled as above. -/
def pass1Aux : Nat → List Char → List Char
  | 0, l => l
  | fuel + 1, c1 :: c2 :: c3 :: rest =>
    if c1 ≠ '\n' ∧ c2.isUpper ∧ c3.isLower then
      c1 :: '_' :: c2 :: c3 ::
        (rest.takeWhile Char.isLower ++ pass1Aux fuel (rest.dropWhile Char.isLower))
    else
      c1 :: pass1Aux fuel (c2 :: c3 :: rest)
  | _ + 1, l => l

def pass1 (l : List Char) : List Char := pass1Aux l.length l

/- Second pass: `re.sub` of ([a-z0-9])([A-Z]) with group1 + underscore +
group2. -/
def pass2 : List Char → List Char
  | c1 :: c2 :: rest =>
    if (c1.isLower ∨ c1.isDigit) ∧ c2.isUpper then
      c1 :: '_' :: c2 :: pass2 rest
    else
      c1 :: pass2 (c2 :: rest)
  | l => l

/- `.replace` of "_parser" by "_parser" (a no-op by construction, but kept
faithful to the source): replace each occurrence of "_parser" by
"_parser", scanning left to right. -/
def replaceParser : List Char → List Char
  | '_' :: 'p' :: 'a' :: 'r' :: 's' :: 'e' :: 'r' :: rest =>
    '_' :: 'p' :: 'a' :: 'r' :: 's' :: 'e' :: 'r' :: replaceParser rest
  | c :: rest => c :: replaceParser rest
  | [] => []

/- `to_snake_case`: pass1, then pass2, then `.lower()`, then the
self-replace. -/
def toSnakeCase (s : String) : String :=
  String.mk (replaceParser ((pass2 (pass1 s.data)).map Char.toLower))

/- app.py line 184: `python_filename = to_snake_case(class_name) + ".py"`. -/
def derivedFilename (class_name : String) : String := toSnakeCase class_name ++ ".py"

/- app.py lines 185-186: bucket directory from the lowercased first
character of the class name (`None` models the IndexError Python would
raise on an empty name; records always carry a non-empty name). -/
def bucketDir (class_name : String) : Option String :=
  match class_name.data with
  | [] => none
  | ch :: _ => some (if ch.toLower.isAlpha then String.mk [ch.toLower] else "_")

/- Modelled from the spec: "bucketed by the lowercase first character of
`className` (or a fallback bucket if non-alphabetic)" — the
alphabetic test is read as being about the first character itself. -/
def specBucket (class_name : String) : Option String :=
  match class_name.data with
  | [] => none
  | ch :: _ => some (if ch.isAlpha then String.mk [ch.toLower] else "_")

/- ### `call_gemini_api` (app.py lines 66-89) -/

/- The nested response structure; every field access in the source uses
`.get` with a default, so every field is optional. -/
structure GPart where
  text : Option String

structure GContent where
  parts : Option (List GPart)

structure GCandidate where
  content : Option GContent

structure GResult where
  candidates : Option (List GCandidate)

inductive PyError where
  | indexError
deriving DecidableEq

/- One transport attempt either raises `requests.exceptions.RequestException`
(network error, timeout, or `raise_for_status`) or yields a decoded
JSON body. -/
inductive TransportResult where
  | raised
  | ok (result : GResult)

/- Python `xs[0]`: IndexError on an empty list. -/
def listGet0 : List α → Except PyError α
  | [] => Except.error PyError.indexError
  | a :: _ => Except.ok a

/- app.py lines 83-85: candidate = first element of the "candidates"
field (defaulting to a one-empty-dict list when the key is absent);
part = first element of candidate "content" "parts" (same defaults);
return the part "text" field, defaulting to the empty string.
The `.get` defaults apply only when the key is absent; an applied
default never guards an empty list, so the index 0 access can raise. -/
def extractText (result : GResult) : Except PyError String := do
  let cand ← listGet0 (result.candidates.getD [⟨none⟩])
  let part ← listGet0 (((cand.content.getD ⟨none⟩).parts).getD [⟨none⟩])
  Except.ok (part.text.getD "")

def apiUrl (key : String) : String :=
  "https://generativelanguage.googleapis.com/v1beta/models/gemini-2.5-flash-preview-05-20:generateContent?key="
    ++ key

/- app.py lines 78-89: up to 3 transport attempts; a raised
`RequestException` is retried (after a sleep), any decoded body goes to
the extraction, whose IndexError (if any) propagates out of the
function; `None` is returned when the loop ends.  The second component
collects the URL of every HTTP request actually issued. -/
def apiAttempts (key : String) (transport : Nat → TransportResult) :
    Nat → Nat → Except PyError (Option String) × List String
  | 0, _ => (Except.ok none, [])
  | fuel + 1, i =>
    match transport i with
    | TransportResult.raised =>
      let r := apiAttempts key transport fuel (i + 1)
      (r.1, apiUrl key :: r.2)
    | TransportResult.ok result =>
      match extractText result with
      | Except.error e => (Except.error e, [apiUrl key])
      | Except.ok t => (Except.ok (some t), [apiUrl key])

def callGeminiApi (key : String) (transport : Nat → TransportResult) :
    Except PyError (Option String) :=
  (apiAttempts key transport 3 0).1

def geminiRequests (key : String) (transport : Nat → TransportResult) : List String :=
  (apiAttempts key transport 3 0).2

/- ### Prompt construction (app.py lines 123-160) -/

structure Selectors where
  content : Option String
  title : Option String
  author : Option String
  cover : Option String

/- One unit of work handed to the repair loop: fields of the JSON record
plus the JavaScript source read for it. -/
structure PRecord where
  class_name : String
  base_urls : List String
  selectors : Selectors
  js_code : String

/- `json.dumps` string escaping (ASCII scope; the URL inputs contain no
control characters, so the `\uXXXX` form for them is elided). -/
def escChar (c : Char) : List Char :=
  if c = '\x22' then ['\\', '\x22']
  else if c = '\\' then ['\\', '\\']
  else if c = '\n' then ['\\', 'n']
  else if c = '\t' then ['\\', 't']
  else if c = '\r' then ['\\', 'r']
  else [c]

def jsonEscape (s : String) : String :=
  String.mk (s.data.foldr (fun c acc => escChar c ++ acc) [])

/- `json.dumps` of the base-urls field, a list of strings. -/
def jsonDumpsList (xs : List String) : String :=
  "[" ++ String.intercalate ", " (xs.map (fun s => "\x22" ++ jsonEscape s ++ "\x22")) ++ "]"

/- The initial prompt f-string (app.py lines 123-146), verbatim
(\x27 = apostrophe, \x7b/\x7d = braces: the escaped
`{{selector}}`). -/
def initialPrompt (rec : PRecord) : String :=
  "\n                You are an expert code converter. Convert the following JavaScript web scraper parser class into a Python class.\n\n                **Rules:**\n                1. The new Python class must inherit from `lncrawl.parser.WebToEpubParser`.\n                2. Use the exact class name: `"
    ++ rec.class_name
    ++ "`.\n                3. The `base_url` must be a Python list of strings: "
    ++ jsonDumpsList rec.base_urls
    ++ ".\n                4. Implement the following methods if their corresponding selector is present: `find_content`, `extract_title`, `extract_author`, `find_cover_image_url`.\n                5. The methods should use `dom.select_one(\x27\x7bselector\x7d\x27)` to find the element.\n                6. For methods where no selector was extracted, add a comment indicating that manual implementation is needed and call the super method.\n                7. Always include a placeholder `get_chapter_urls` method that returns an empty list and has a comment explaining it needs manual implementation.\n                8. The final output must be ONLY the Python code block, with no explanations or markdown fences.\n\n                **Extracted Selectors:**\n                - Content: "
    ++ optStr rec.selectors.content
    ++ "\n                - Title: "
    ++ optStr rec.selectors.title
    ++ "\n                - Author: "
    ++ optStr rec.selectors.author
    ++ "\n                - Cover: "
    ++ optStr rec.selectors.cover
    ++ "\n\n                **JavaScript Source Code:**\n                ```javascript\n                "
    ++ rec.js_code
    ++ "\n                ```\n                "

/- The corrective prompt f-string (app.py lines 148-160), split at the
two interpolation points and around the final instruction sentence. -/
def correctiveHead : String :=
  "\n                The Python code you previously generated had a syntax error. Please fix it.\n\n                **Error:**\n                "

def correctiveMid : String :=
  "\n\n                **Incorrect Python Code:**\n                ```python\n                "

def correctivePre : String :=
  "\n                ```\n\n                "

def correctiveInstr : String :=
  "Return ONLY the corrected, valid Python code, with no explanations."

def correctiveEnd : String :=
  "\n                "

def correctivePrompt (ve pc : String) : String :=
  correctiveHead ++ ve ++ correctiveMid ++ pc ++ correctivePre ++ correctiveInstr ++ correctiveEnd

/- app.py lines 122-160: the prompt built at a given attempt, from the
current `python_code` / `validation_error` variables. -/
def mkPrompt (rec : PRecord) (attempt : Nat) (pc ve : Option String) : String :=
  if attempt = 0 then initialPrompt rec else correctivePrompt (optStr ve) (optStr pc)

/- ### The repair loop (app.py lines 119-194) -/

/- One request/response round: the prompt sent, the value returned by
the client, the fence-stripped code (absent when the loop broke before
cleaning), and the value of `validation_error` after the round. -/
structure AttemptRec where
  prompt : String
  response : Option String
  cleaned : Option String
  diag : Option String

/- The `for attempt in range(3)` body.  `api n` is the value returned by
`call_gemini_api` at the n-th invocation; `validate` models
`ast.parse` (`none` = parses, `some d` = SyntaxError with diagnostic
`d`).  Returns the trace of attempts together with the final
`python_code` and `validation_error`. -/
def runAttempts (api : Nat → Option String) (validate : String → Option String)
    (rec : PRecord) :
    Nat → Nat → Option String → Option String →
      List AttemptRec × Option String × Option String
  | 0, _, pc, ve => ([], pc, ve)
  | fuel + 1, attempt, pc, ve =>
    match api attempt with
    | none => ([⟨mkPrompt rec attempt pc ve, none, none, ve⟩], none, ve)
    | some raw =>
      if raw = "" then
        ([⟨mkPrompt rec attempt pc ve, some raw, none, ve⟩], some raw, ve)
      else
        match validate (cleanCode raw) with
        | none =>
          ([⟨mkPrompt rec attempt pc ve, some raw, some (cleanCode raw), none⟩],
            some (cleanCode raw), none)
        | some d =>
          let r := runAttempts api validate rec fuel (attempt + 1)
            (some (cleanCode raw)) (some d)
          (⟨mkPrompt rec attempt pc ve, some raw, some (cleanCode raw), some d⟩ :: r.1, r.2)

/- The whole per-record loop: `python_code = None`,
`validation_error = None`, three attempts. -/
def convertRecord (api : Nat → Option String) (validate : String → Option String)
    (rec : PRecord) : List AttemptRec × Option String × Option String :=
  runAttempts api validate rec 3 0 none none

inductive Outcome where
  | success (code : String)
  | failed (lastDiag : Option String)
deriving DecidableEq

/- app.py lines 182-194: `if validation_error is None and python_code:`
write the file (Success with the cleaned code), else report failure;
a failure carries the final `validation_error`. -/
def outcomeOf (res : List AttemptRec × Option String × Option String) : Outcome :=
  match res.2.1, res.2.2 with
  | some code, none =>
    if code = "" then Outcome.failed none else Outcome.success code
  | _, ve => Outcome.failed ve

/- The relation between consecutive attempts in a trace: the later
later attempt is prompted with the corrective prompt built verbatim
from the cleaned code and diagnostic of the earlier attempt. -/
def CorrectiveLink (a b : AttemptRec) : Prop :=
  ∃ c d, a.cleaned = some c ∧ a.diag = some d ∧ b.prompt = correctivePrompt d c

/- ### Concrete data for witnesses and counterexamples -/

def sampleRec : PRecord :=
  ⟨"FooBarParser", ["https://foo.bar"], ⟨some "#c", none, none, none⟩,
    "class FooBarParser extends Parser \x7b\x7d"⟩

def apiAllNone : Nat → Option String := fun _ => none

def apiFenceOnly : Nat → Option String := fun _ => some "```"

def acceptAll : String → Option String := fun _ => none

def allRaised : Nat → TransportResult := fun _ => TransportResult.raised

def emptyCandidates : GResult := ⟨some []⟩

def noKeysResult : GResult := ⟨none⟩

def apiABC : Nat → Option String :=
  fun i => if i = 0 then some "a" else if i = 1 then some "b" else some "c"

def echoDiag : String → Option String := fun s => some s

/- All three transport attempts raise (the all-transport-failure
scenario). -/
def allRaised3 (transport : Nat → TransportResult) : Prop :=
  transport 0 = TransportResult.raised ∧ transport 1 = TransportResult.raised ∧
    transport 2 = TransportResult.raised

/- ### Helper lemmas: fence stripping -/

theorem subFencesAux_congr : ∀ fuel fuel' l, l.length ≤ fuel → l.length ≤ fuel' →
    subFencesAux fuel l = subFencesAux fuel' l := by
  intro fuel
  induction fuel with
  | zero =>
    intro fuel' l hl _
    have : l = [] := List.eq_nil_of_length_eq_zero (Nat.le_zero.1 hl)
    subst this
    cases fuel' <;> rfl
  | succ m ih =>
    intro fuel' l hl hl'
    cases l with
    | nil => cases fuel' <;> rfl
    | cons c rest =>
      cases fuel' with
      | zero => simp at hl'
      | succ m' =>
        simp only [subFencesAux]
        by_cases h1 : fencePy.isPrefixOf (c :: rest) = true
        · simp only [h1, if_true]
          apply ih
          · simp only [List.length_drop]
            simp only [List.length_cons] at hl
            omega
          · simp only [List.length_drop]
            simp only [List.length_cons] at hl'
            omega
        · simp only [Bool.not_eq_true] at h1
          simp only [h1, Bool.false_eq_true, if_false]
          by_cases h2 : fence3.isPrefixOf (c :: rest) = true
          · simp only [h2, if_true]
            apply ih
            · simp only [List.length_drop]
              simp only [List.length_cons] at hl
              omega
            · simp only [List.length_drop]
              simp only [List.length_cons] at hl'
              omega
          · simp only [Bool.not_eq_true] at h2
            simp only [h2, Bool.false_eq_true, if_false]
            have := ih m' rest (by simp only [List.length_cons] at hl; omega)
              (by simp only [List.length_cons] at hl'; omega)
            rw [this]

theorem subFences_cons (c : Char) (rest : List Char) :
    subFences (c :: rest) =
      if fencePy.isPrefixOf (c :: rest) then subFences (rest.drop 9)
      else if fence3.isPrefixOf (c :: rest) then subFences (rest.drop 2)
      else c :: subFences rest := by
  show subFencesAux (c :: rest).length (c :: rest) = _
  simp only [List.length_cons, subFencesAux]
  by_cases h1 : fencePy.isPrefixOf (c :: rest) = true
  · simp only [h1, if_true]
    apply subFencesAux_congr <;> simp only [List.length_drop] <;> omega
  · simp only [Bool.not_eq_true] at h1
    simp only [h1, Bool.false_eq_true, if_false]
    by_cases h2 : fence3.isPrefixOf (c :: rest) = true
    · simp only [h2, if_true]
      apply subFencesAux_congr <;> simp only [List.length_drop] <;> omega
    · simp only [Bool.not_eq_true] at h2
      simp only [h2, Bool.false_eq_true, if_false]
      rfl

theorem fence3_prefix_iff (l : List Char) : fence3 <+: l ↔ 3 ≤ leadingBT l := by
  show ('\x60' :: '\x60' :: '\x60' :: ([] : List Char)) <+: l ↔ _
  match l with
  | [] =>
    simp [leadingBT]
  | [a] =>
    constructor
    · intro h
      rcases h with ⟨t, ht⟩
      simp at ht
    · intro h
      by_cases ha : a = '\x60' <;> simp [leadingBT, ha] at h
  | [a, b] =>
    constructor
    · intro h
      rcases h with ⟨t, ht⟩
      simp at ht
    · intro h
      by_cases ha : a = '\x60' <;> by_cases hb : b = '\x60' <;>
        simp [leadingBT, ha, hb] at h
  | a :: b :: c :: t =>
    rw [List.cons_prefix_cons, List.cons_prefix_cons, List.cons_prefix_cons]
    constructor
    · rintro ⟨rfl, rfl, rfl, -⟩
      simp [leadingBT]
    · intro h
      by_cases ha : a = '\x60' <;> by_cases hb : b = '\x60' <;> by_cases hc : c = '\x60' <;>
        simp [leadingBT, ha, hb, hc] at h ⊢

theorem fence3_prefix_of_fencePy {l : List Char} (h : fencePy <+: l) : fence3 <+: l :=
  List.IsPrefix.trans (by decide) h

theorem leadingBT_le_two_of_noTriple (l : List Char) (h : noTriple l = true) :
    leadingBT l ≤ 2 := by
  by_contra hc
  have h3 : 3 ≤ leadingBT l := by omega
  have hp : fence3 <+: l := (fence3_prefix_iff l).2 h3
  cases l with
  | nil => simp [leadingBT] at h3
  | cons c rest =>
    have hb : fence3.isPrefixOf (c :: rest) = true := List.isPrefixOf_iff_prefix.2 hp
    simp [noTriple, hb] at h

theorem noTriple_cons_iff (c : Char) (rest : List Char) :
    noTriple (c :: rest) = true ↔
      fence3.isPrefixOf (c :: rest) = false ∧ noTriple rest = true := by
  simp [noTriple, Bool.and_eq_true, Bool.not_eq_true']

theorem noTriple_subFences : ∀ n l, l.length ≤ n →
    noTriple (subFences l) = true ∧ leadingBT (subFences l) ≤ leadingBT l := by
  intro n
  induction n with
  | zero =>
    intro l hl
    have : l = [] := List.eq_nil_of_length_eq_zero (Nat.le_zero.1 hl)
    subst this
    exact ⟨rfl, le_refl _⟩
  | succ m ih =>
    intro l hl
    match l with
    | [] => exact ⟨rfl, le_refl _⟩
    | c :: rest =>
      rw [subFences_cons]
      simp only [List.length_cons] at hl
      by_cases h1 : fencePy.isPrefixOf (c :: rest) = true
      · simp only [h1, if_true]
        have hdrop : (rest.drop 9).length ≤ m := by
          simp only [List.length_drop]; omega
        obtain ⟨ht, -⟩ := ih _ hdrop
        refine ⟨ht, ?_⟩
        have hb2 : leadingBT (subFences (rest.drop 9)) ≤ 2 :=
          leadingBT_le_two_of_noTriple _ ht
        have hb3 : 3 ≤ leadingBT (c :: rest) :=
          (fence3_prefix_iff _).1
            (fence3_prefix_of_fencePy ( List.isPrefixOf_iff_prefix.1 h1))
        omega
      · simp only [Bool.not_eq_true] at h1
        simp only [h1, Bool.false_eq_true, if_false]
        by_cases h2 : fence3.isPrefixOf (c :: rest) = true
        · simp only [h2, if_true]
          have hdrop : (rest.drop 2).length ≤ m := by
            simp only [List.length_drop]; omega
          obtain ⟨ht, -⟩ := ih _ hdrop
          refine ⟨ht, ?_⟩
          have hb2 : leadingBT (subFences (rest.drop 2)) ≤ 2 :=
            leadingBT_le_two_of_noTriple _ ht
          have hb3 : 3 ≤ leadingBT (c :: rest) :=
            (fence3_prefix_iff _).1 ( List.isPrefixOf_iff_prefix.1 h2)
          omega
        · simp only [Bool.not_eq_true] at h2
          simp only [h2, Bool.false_eq_true, if_false]
          obtain ⟨ht, hle⟩ := ih rest (by omega)
          have hnp : ¬ 3 ≤ leadingBT (c :: rest) := by
            intro hh
            have := List.isPrefixOf_iff_prefix.2 ((fence3_prefix_iff _).2 hh)
            rw [h2] at this
            exact Bool.false_ne_true this
          constructor
          · rw [noTriple_cons_iff]
            refine ⟨?_, ht⟩
            by_cases hpf : fence3.isPrefixOf (c :: subFences rest) = true
            · exfalso
              have h3 : 3 ≤ leadingBT (c :: subFences rest) :=
                (fence3_prefix_iff _).1 ( List.isPrefixOf_iff_prefix.1 hpf)
              by_cases hc : c = '\x60'
              · simp only [leadingBT, hc, if_true] at h3 hnp
                omega
              · simp [leadingBT, hc] at h3
            · simp only [Bool.not_eq_true] at hpf
              exact hpf
          · by_cases hc : c = '\x60' <;> simp only [leadingBT, hc, if_true, if_false] <;> omega

theorem subFences_of_noTriple : ∀ n l, l.length ≤ n → noTriple l = true →
    subFences l = l := by
  intro n
  induction n with
  | zero =>
    intro l hl _
    have : l = [] := List.eq_nil_of_length_eq_zero (Nat.le_zero.1 hl)
    subst this
    rfl
  | succ m ih =>
    intro l hl ht
    match l with
    | [] => rfl
    | c :: rest =>
      simp only [List.length_cons] at hl
      obtain ⟨h3, hrest⟩ := (noTriple_cons_iff c rest).1 ht
      have hpy : fencePy.isPrefixOf (c :: rest) = false := by
        by_contra hx
        simp only [Bool.not_eq_false] at hx
        have := List.isPrefixOf_iff_prefix.2
          (fence3_prefix_of_fencePy ( List.isPrefixOf_iff_prefix.1 hx))
        rw [h3] at this
        exact Bool.false_ne_true this
      rw [subFences_cons]
      simp only [hpy, h3, Bool.false_eq_true, if_false]
      rw [ih rest (by omega) hrest]

theorem prefix_extend {p a ys : List Char} (h : p <+: a) : p <+: a ++ ys :=
  List.IsPrefix.trans h (List.prefix_append a ys)

theorem noTriple_tail {c : Char} {l : List Char} (h : noTriple (c :: l) = true) :
    noTriple l = true :=
  ((noTriple_cons_iff c l).1 h).2

theorem noTriple_append_left : ∀ xs ys : List Char,
    noTriple (xs ++ ys) = true → noTriple xs = true := by
  intro xs
  induction xs with
  | nil => intro ys _; rfl
  | cons c t ih =>
    intro ys h
    rw [List.cons_append] at h
    obtain ⟨h3, hrest⟩ := (noTriple_cons_iff c (t ++ ys)).1 h
    rw [noTriple_cons_iff]
    refine ⟨?_, ih ys hrest⟩
    by_contra hx
    simp only [Bool.not_eq_false] at hx
    have : fence3 <+: (c :: t) ++ ys := prefix_extend ( List.isPrefixOf_iff_prefix.1 hx)
    rw [List.cons_append] at this
    have := List.isPrefixOf_iff_prefix.2 this
    rw [h3] at this
    exact Bool.false_ne_true this

theorem noTriple_append_right : ∀ xs ys : List Char,
    noTriple (xs ++ ys) = true → noTriple ys = true := by
  intro xs
  induction xs with
  | nil => intro ys h; exact h
  | cons c t ih =>
    intro ys h
    rw [List.cons_append] at h
    exact ih ys (noTriple_tail h)

theorem dropWhile_suffix_of {p : Char → Bool} (l : List Char) :
    l.dropWhile p <:+ l :=
  List.dropWhile_suffix p

theorem noTriple_pyStrip (l : List Char) (h : noTriple l = true) :
    noTriple (pyStrip l) = true := by
  have hA : noTriple (l.dropWhile isPySpace) = true := by
    have hsuf0 : l.dropWhile isPySpace <:+ l := dropWhile_suffix_of l
    obtain ⟨pre, hpre⟩ := hsuf0
    rw [← hpre] at h
    exact noTriple_append_right pre _ h
  have hpref : pyStrip l <+: l.dropWhile isPySpace := by
    have hsuf : (l.dropWhile isPySpace).reverse.dropWhile isPySpace <:+
        (l.dropWhile isPySpace).reverse :=
      dropWhile_suffix_of (l.dropWhile isPySpace).reverse
    have := List.reverse_prefix.2 hsuf
    rw [List.reverse_reverse] at this
    exact this
  obtain ⟨post, hpost⟩ := hpref
  exact noTriple_append_left _ post (hpost ▸ hA)

theorem dropWhile_head_false {p : Char → Bool} :
    ∀ (l : List Char) {c : Char} {t : List Char}, l.dropWhile p = c :: t → p c = false := by
  intro l
  induction l with
  | nil => intro c t h; simp [List.dropWhile] at h
  | cons a l' ih =>
    intro c t h
    rw [List.dropWhile_cons] at h
    by_cases hp : p a = true
    · rw [if_pos hp] at h
      exact ih h
    · simp only [hp, Bool.false_eq_true, if_false] at h
      cases h
      simp only [Bool.not_eq_true] at hp
      exact hp

theorem dropWhile_self_of_head {p : Char → Bool} (l : List Char)
    (h : ∀ c t, l = c :: t → p c = false) : l.dropWhile p = l := by
  cases l with
  | nil => rfl
  | cons c t =>
    rw [List.dropWhile_cons, if_neg]
    simp [h c t rfl]

theorem pyStrip_idem (l : List Char) : pyStrip (pyStrip l) = pyStrip l := by
  have hpref : pyStrip l <+: l.dropWhile isPySpace := by
    have hsuf : (l.dropWhile isPySpace).reverse.dropWhile isPySpace <:+
        (l.dropWhile isPySpace).reverse :=
      dropWhile_suffix_of (l.dropWhile isPySpace).reverse
    have := List.reverse_prefix.2 hsuf
    rw [List.reverse_reverse] at this
    exact this
  have h1 : (pyStrip l).dropWhile isPySpace = pyStrip l := by
    apply dropWhile_self_of_head
    intro c t hct
    obtain ⟨post, hpost⟩ := hpref
    rw [hct] at hpost
    exact dropWhile_head_false l hpost.symm
  have h2 : (pyStrip l).reverse.dropWhile isPySpace = (pyStrip l).reverse := by
    apply dropWhile_self_of_head
    intro c t hct
    have hrev : (pyStrip l).reverse = (l.dropWhile isPySpace).reverse.dropWhile isPySpace := by
      show (((l.dropWhile isPySpace).reverse.dropWhile isPySpace).reverse).reverse = _
      rw [List.reverse_reverse]
    rw [hrev] at hct
    exact dropWhile_head_false (l.dropWhile isPySpace).reverse hct
  show (((pyStrip l).dropWhile isPySpace).reverse.dropWhile isPySpace).reverse = pyStrip l
  rw [h1, h2, List.reverse_reverse]

/-- C8: the code-fence stripping function (app.py line 170) is idempotent:
applying it twice yields the same result as applying it once; and on
already-clean code (no three-backtick fence markup, no surrounding
whitespace) it is the identity. -/
theorem c8_cleanCode_idempotent (s : String) :
    cleanCode (cleanCode s) = cleanCode s ∧
      (noTriple s.data = true → pyStrip s.data = s.data → cleanCode s = s) := by
  constructor
  · show String.mk (pyStrip (subFences (cleanCode s).data)) = cleanCode s
    have hdata : (cleanCode s).data = pyStrip (subFences s.data) := rfl
    rw [hdata]
    have hY : noTriple (subFences s.data) = true :=
      (noTriple_subFences s.data.length s.data (le_refl _)).1
    have hX : noTriple (pyStrip (subFences s.data)) = true := noTriple_pyStrip _ hY
    rw [subFences_of_noTriple (pyStrip (subFences s.data)).length _ (le_refl _) hX]
    rw [pyStrip_idem]
    rfl
  · intro h1 h2
    show String.mk (pyStrip (subFences s.data)) = s
    rw [subFences_of_noTriple s.data.length s.data (le_refl _) h1, h2]

/-- Witness for C8: a concrete already-clean program text. -/
theorem c8_cleanCode_idempotent_witness :
    noTriple "print(1)".data = true ∧ pyStrip "print(1)".data = "print(1)".data ∧
      cleanCode "print(1)" = "print(1)" :=
  ⟨by decide, by decide, (c8_cleanCode_idempotent "print(1)").2 (by decide) (by decide)⟩

/- ### Helper lemmas: characters (for the filename bucket) -/

theorem uint32_le_iff (a b : UInt32) : (a ≤ b) ↔ a.toNat ≤ b.toNat := by
  rw [UInt32.le_def, BitVec.le_def]
  rfl

theorem charOfNat_toNat_small {n : Nat} (h : n < 55296) : (Char.ofNat n).toNat = n := by
  have hv : n.isValidChar := Or.inl h
  rw [Char.ofNat, dif_pos hv]
  show (BitVec.ofNatLt n _).toNat = n
  simp [BitVec.ofNatLt]

theorem char_isUpper_iff (c : Char) : c.isUpper = true ↔ 65 ≤ c.toNat ∧ c.toNat ≤ 90 := by
  unfold Char.isUpper
  rw [Bool.and_eq_true, decide_eq_true_iff, decide_eq_true_iff,
    ge_iff_le, uint32_le_iff, uint32_le_iff]
  exact Iff.rfl

theorem char_isLower_iff (c : Char) : c.isLower = true ↔ 97 ≤ c.toNat ∧ c.toNat ≤ 122 := by
  unfold Char.isLower
  rw [Bool.and_eq_true, decide_eq_true_iff, decide_eq_true_iff,
    ge_iff_le, uint32_le_iff, uint32_le_iff]
  exact Iff.rfl

theorem char_isAlpha_iff (c : Char) : c.isAlpha = true ↔
    (65 ≤ c.toNat ∧ c.toNat ≤ 90) ∨ (97 ≤ c.toNat ∧ c.toNat ≤ 122) := by
  unfold Char.isAlpha
  rw [Bool.or_eq_true, char_isUpper_iff, char_isLower_iff]

theorem toLower_isAlpha (c : Char) : c.toLower.isAlpha = c.isAlpha := by
  unfold Char.toLower
  by_cases h : c.toNat ≥ 65 ∧ c.toNat ≤ 90
  · rw [if_pos h]
    have hval : (Char.ofNat (c.toNat + 32)).toNat = c.toNat + 32 :=
      charOfNat_toNat_small (by omega)
    have h1 : (Char.ofNat (c.toNat + 32)).isAlpha = true :=
      (char_isAlpha_iff _).2 (Or.inr (by rw [hval]; omega))
    have h2 : c.isAlpha = true := (char_isAlpha_iff _).2 (Or.inl (by omega))
    rw [h1, h2]
  · rw [if_neg h]

/-- C9: the derived output filename is `to_snake_case(className) + ".py"`,
bucketed by the lowercase first character of the class name (fallback
bucket "_" when not alphabetic, which agrees with the reading of the spec
where the test is on the first character itself); in particular
"FooBarParser" derives `foo_bar_parser.py` in bucket `f`. -/
theorem c9_filename_derivation :
    (∀ name : String, derivedFilename name = toSnakeCase name ++ ".py") ∧
      (∀ name : String, bucketDir name = specBucket name) ∧
      derivedFilename "FooBarParser" = "foo_bar_parser.py" ∧
      bucketDir "FooBarParser" = some "f" := by
  refine ⟨fun name => rfl, fun name => ?_, by decide, by decide⟩
  unfold bucketDir specBucket
  cases name.data with
  | nil => rfl
  | cons ch t => simp only [toLower_isAlpha]

/- ### Helper lemmas: the repair loop -/

theorem runAttempts_length_le (api : Nat → Option String)
    (validate : String → Option String) (rec : PRecord) :
    ∀ fuel attempt pc ve,
      (runAttempts api validate rec fuel attempt pc ve).1.length ≤ fuel := by
  intro fuel
  induction fuel with
  | zero => intro attempt pc ve; simp [runAttempts]
  | succ m ih =>
    intro attempt pc ve
    simp only [runAttempts]
    rcases hr : api attempt with _ | raw
    · simp
    · by_cases hraw : raw = ""
      · simp [hraw]
      · simp only [hraw, if_false]
        rcases hv : validate (cleanCode raw) with _ | d
        · simp
        · simp only [List.length_cons]
          have := ih (attempt + 1) (some (cleanCode raw)) (some d)
          omega

/-- C2: for any completion-client behaviour, any validator behaviour and
any record, the per-record repair loop performs at most 3
completion-client invocations (one per traced attempt). -/
theorem c2_at_most_three_invocations (api : Nat → Option String)
    (validate : String → Option String) (rec : PRecord) :
    (convertRecord api validate rec).1.length ≤ 3 :=
  runAttempts_length_le api validate rec 3 0 none none

/-- C5 (amended): if the first completion response is non-empty and its
fence-stripped form is accepted by the validator and is itself
non-empty, the loop stops after exactly 1 invocation with the Success
outcome carrying the cleaned code. -/
theorem c5_first_valid_is_success (api : Nat → Option String)
    (validate : String → Option String) (rec : PRecord) (r : String)
    (h0 : api 0 = some r) (h1 : r ≠ "") (h2 : validate (cleanCode r) = none)
    (h3 : cleanCode r ≠ "") :
    (convertRecord api validate rec).1.length = 1 ∧
      outcomeOf (convertRecord api validate rec) = Outcome.success (cleanCode r) := by
  unfold convertRecord
  simp [runAttempts, h0, h1, h2, outcomeOf, h3]

/-- Witness for C5 (amended) at a concrete valid completion. -/
theorem c5_first_valid_is_success_witness :
    (fun _ : Nat => some "print(2)") 0 = some "print(2)" ∧ "print(2)" ≠ "" ∧
      acceptAll (cleanCode "print(2)") = none ∧ cleanCode "print(2)" ≠ "" ∧
      ((convertRecord (fun _ => some "print(2)") acceptAll sampleRec).1.length = 1 ∧
        outcomeOf (convertRecord (fun _ => some "print(2)") acceptAll sampleRec) =
          Outcome.success (cleanCode "print(2)")) :=
  ⟨rfl, by decide, rfl, by decide,
    c5_first_valid_is_success (fun _ => some "print(2)") acceptAll sampleRec "print(2)"
      rfl (by decide) rfl (by decide)⟩

/-- C5 counterexample: the raw response "```" is non-empty, its
fence-stripped form is the empty string, which the validator accepts
(as `ast.parse("")` does), yet after exactly 1 invocation the outcome
is Failed, not Success. -/
theorem c5_counterexample :
    acceptAll (cleanCode "```") = none ∧ cleanCode "```" = "" ∧
      (convertRecord apiFenceOnly acceptAll sampleRec).1.length = 1 ∧
      outcomeOf (convertRecord apiFenceOnly acceptAll sampleRec) = Outcome.failed none :=
  ⟨rfl, by decide, rfl, rfl⟩

/-- C1 (amended): when the completion client returns no text (None or an
empty string) at the current attempt, the loop breaks out immediately
— a single traced attempt, with `python_code` set to that falsy value
and `validation_error` left unchanged; no corrective prompt and no
synthetic diagnostic are produced. -/
theorem c1_no_text_breaks_loop (api : Nat → Option String)
    (validate : String → Option String) (rec : PRecord)
    (fuel attempt : Nat) (pc ve : Option String)
    (h : pyFalsy (api attempt) = true) :
    (runAttempts api validate rec (fuel + 1) attempt pc ve).1.length = 1 ∧
      (runAttempts api validate rec (fuel + 1) attempt pc ve).2 = (api attempt, ve) := by
  rcases hr : api attempt with _ | raw
  · simp [runAttempts, hr]
  · have hraw : raw = "" := by
      rw [hr] at h
      simpa [pyFalsy] using h
    subst hraw
    simp [runAttempts, hr]

/-- Witness for C1 (amended): a client that never returns text. -/
theorem c1_no_text_breaks_loop_witness :
    pyFalsy (apiAllNone 0) = true ∧
      ((runAttempts apiAllNone acceptAll sampleRec 3 0 none none).1.length = 1 ∧
        (runAttempts apiAllNone acceptAll sampleRec 3 0 none none).2 = (apiAllNone 0, none)) :=
  ⟨rfl, c1_no_text_breaks_loop apiAllNone acceptAll sampleRec 2 0 none none rfl⟩

/-- C1 counterexample: with a completion client yielding no text on every
invocation, exactly 1 invocation (not 3) is observed, and the failure
carries no diagnostic at all — in particular not the synthetic
"no usable response" the claim predicts. -/
theorem c1_counterexample :
    (convertRecord apiAllNone acceptAll sampleRec).1.length = 1 ∧
      outcomeOf (convertRecord apiAllNone acceptAll sampleRec) = Outcome.failed none ∧
      Outcome.failed (none : Option String) ≠
        Outcome.failed (some "no usable response") :=
  ⟨rfl, rfl, by decide⟩

/-- C6: when all three attempts return non-empty text whose cleaned form
the validator rejects, the loop traces exactly 3 attempts and the
outcome is Failed carrying the diagnostic of the third attempt. -/
theorem c6_failed_carries_third_diag (api : Nat → Option String)
    (validate : String → Option String) (rec : PRecord)
    (r0 r1 r2 d0 d1 d2 : String)
    (h0 : api 0 = some r0) (h0e : r0 ≠ "") (h0v : validate (cleanCode r0) = some d0)
    (h1 : api 1 = some r1) (h1e : r1 ≠ "") (h1v : validate (cleanCode r1) = some d1)
    (h2 : api 2 = some r2) (h2e : r2 ≠ "") (h2v : validate (cleanCode r2) = some d2) :
    (convertRecord api validate rec).1.length = 3 ∧
      outcomeOf (convertRecord api validate rec) = Outcome.failed (some d2) := by
  unfold convertRecord
  simp [runAttempts, h0, h0e, h0v, h1, h1e, h1v, h2, h2e, h2v, outcomeOf]

/-- Witness for C6: three concrete rejected attempts with distinct
diagnostics; the reported one is the third. -/
theorem c6_failed_carries_third_diag_witness :
    apiABC 0 = some "a" ∧ apiABC 1 = some "b" ∧ apiABC 2 = some "c" ∧
      echoDiag (cleanCode "a") = some "a" ∧ echoDiag (cleanCode "b") = some "b" ∧
      echoDiag (cleanCode "c") = some "c" ∧
      ((convertRecord apiABC echoDiag sampleRec).1.length = 3 ∧
        outcomeOf (convertRecord apiABC echoDiag sampleRec) = Outcome.failed (some "c")) :=
  ⟨rfl, rfl, rfl, rfl, rfl, rfl,
    c6_failed_carries_third_diag apiABC echoDiag sampleRec "a" "b" "c" "a" "b" "c"
      rfl (by decide) rfl rfl (by decide) rfl rfl (by decide) rfl⟩

/-- C10: a non-empty response whose fence-stripped form is the empty
string is accepted by the validator (the empty program parses), the
loop breaks as on success, but the final truthiness check rejects the
empty code: the outcome is Failed and nothing would be written. -/
theorem c10_empty_clean_code_fails (api : Nat → Option String)
    (validate : String → Option String) (rec : PRecord)
    (fuel attempt : Nat) (pc ve : Option String) (r : String)
    (h0 : api attempt = some r) (h1 : r ≠ "") (h2 : cleanCode r = "")
    (h3 : validate "" = none) :
    (runAttempts api validate rec (fuel + 1) attempt pc ve).1.length = 1 ∧
      (runAttempts api validate rec (fuel + 1) attempt pc ve).2 = (some "", none) ∧
      outcomeOf (runAttempts api validate rec (fuel + 1) attempt pc ve) =
        Outcome.failed none := by
  have hv : validate (cleanCode r) = none := by rw [h2]; exact h3
  simp [runAttempts, h0, h1, hv, h2, h3, outcomeOf]

/-- Witness for C10: the concrete response "```". -/
theorem c10_empty_clean_code_fails_witness :
    apiFenceOnly 0 = some "```" ∧ "```" ≠ "" ∧ cleanCode "```" = "" ∧
      acceptAll "" = none ∧
      ((runAttempts apiFenceOnly acceptAll sampleRec 3 0 none none).1.length = 1 ∧
        (runAttempts apiFenceOnly acceptAll sampleRec 3 0 none none).2 = (some "", none) ∧
        outcomeOf (runAttempts apiFenceOnly acceptAll sampleRec 3 0 none none) =
          Outcome.failed none) :=
  ⟨rfl, by decide, by decide, rfl,
    c10_empty_clean_code_fails apiFenceOnly acceptAll sampleRec 2 0 none none "```"
      rfl (by decide) (by decide) rfl⟩

theorem runAttempts_head_prompt (api : Nat → Option String)
    (validate : String → Option String) (rec : PRecord) :
    ∀ fuel attempt pc ve b,
      (runAttempts api validate rec fuel attempt pc ve).1.head? = some b →
      b.prompt = mkPrompt rec attempt pc ve := by
  intro fuel attempt pc ve b
  cases fuel with
  | zero => simp [runAttempts]
  | succ m =>
    simp only [runAttempts]
    rcases hr : api attempt with _ | raw
    · intro h
      simp only [List.head?_cons, Option.some_inj] at h
      rw [← h]
    · by_cases hraw : raw = ""
      · subst hraw
        intro h
        simp at h
        rw [← h]
      · simp only [if_neg hraw]
        rcases hv : validate (cleanCode raw) with _ | d
        · intro h
          simp only [List.head?_cons, Option.some_inj] at h
          rw [← h]
        · intro h
          simp only [List.head?_cons, Option.some_inj] at h
          rw [← h]

theorem runAttempts_chain (api : Nat → Option String)
    (validate : String → Option String) (rec : PRecord) :
    ∀ fuel attempt pc ve,
      List.Chain' CorrectiveLink (runAttempts api validate rec fuel attempt pc ve).1 := by
  intro fuel
  induction fuel with
  | zero => intro attempt pc ve; simp [runAttempts]
  | succ m ih =>
    intro attempt pc ve
    simp only [runAttempts]
    rcases hr : api attempt with _ | raw
    · exact List.chain'_singleton _
    · by_cases hraw : raw = ""
      · simp only [if_pos hraw]
        exact List.chain'_singleton _
      · simp only [if_neg hraw]
        rcases hv : validate (cleanCode raw) with _ | d
        · exact List.chain'_singleton _
        · rw [List.chain'_cons']
          refine ⟨?_, ih (attempt + 1) (some (cleanCode raw)) (some d)⟩
          intro b hb
          have hp := runAttempts_head_prompt api validate rec m (attempt + 1)
            (some (cleanCode raw)) (some d) b hb
          refine ⟨cleanCode raw, d, rfl, rfl, ?_⟩
          rw [hp]
          unfold mkPrompt
          rw [if_neg (Nat.succ_ne_zero attempt)]
          rfl

/-- C7: along any repair-loop trace, every attempt after the first is
sent exactly the corrective prompt built from the immediately
cleaned code and diagnostic of the immediately preceding attempt;
and a corrective
prompt embeds the diagnostic, the previous code, and the
"return only corrected code" instruction verbatim. -/
theorem c7_corrective_prompts_verbatim (api : Nat → Option String)
    (validate : String → Option String) (rec : PRecord) :
    List.Chain' CorrectiveLink (convertRecord api validate rec).1 ∧
      (∀ ve pc : String,
        (∃ x y, (correctivePrompt ve pc).data = x ++ (ve.data ++ y)) ∧
        (∃ u w, (correctivePrompt ve pc).data = u ++ (pc.data ++ w)) ∧
        (∃ a b, (correctivePrompt ve pc).data = a ++ (correctiveInstr.data ++ b))) := by
  constructor
  · exact runAttempts_chain api validate rec 3 0 none none
  · intro ve pc
    refine ⟨⟨correctiveHead.data,
        correctiveMid.data ++ (pc.data ++ (correctivePre.data ++ (correctiveInstr.data ++
          correctiveEnd.data))), ?_⟩,
      ⟨correctiveHead.data ++ (ve.data ++ correctiveMid.data),
        correctivePre.data ++ (correctiveInstr.data ++ correctiveEnd.data), ?_⟩,
      ⟨correctiveHead.data ++ (ve.data ++ (correctiveMid.data ++ (pc.data ++
          correctivePre.data))), correctiveEnd.data, ?_⟩⟩ <;>
    simp [correctivePrompt, List.append_assoc]

/-- C3 (amended): the completion client returns null exactly when all 3
transport attempts raise; a well-formed response with the expected
keys entirely absent yields the defaulted empty string (no exception,
but not a descriptive failure string either). -/
theorem c3_null_iff_transport_exhausted (key : String)
    (transport : Nat → TransportResult) :
    (callGeminiApi key transport = Except.ok none ↔ allRaised3 transport) ∧
      extractText noKeysResult = Except.ok "" := by
  refine ⟨⟨?_, ?_⟩, rfl⟩
  · intro h
    rcases h0 : transport 0 with _ | r0
    · rcases h1 : transport 1 with _ | r1
      · rcases h2 : transport 2 with _ | r2
        · exact ⟨h0, h1, h2⟩
        · exfalso
          simp only [callGeminiApi, apiAttempts, h0, h1, h2] at h
          rcases he : extractText r2 with e | t <;> simp [he] at h
      · exfalso
        simp only [callGeminiApi, apiAttempts, h0, h1] at h
        rcases he : extractText r1 with e | t <;> simp [he] at h
    · exfalso
      simp only [callGeminiApi, apiAttempts, h0] at h
      rcases he : extractText r0 with e | t <;> simp [he] at h
  · rintro ⟨h0, h1, h2⟩
    simp [callGeminiApi, apiAttempts, h0, h1, h2]

/-- Witness for C3 (amended): the all-raised transport. -/
theorem c3_null_iff_transport_exhausted_witness :
    allRaised3 allRaised ∧ callGeminiApi "" allRaised = Except.ok none :=
  ⟨⟨rfl, rfl, rfl⟩, (c3_null_iff_transport_exhausted "" allRaised).1.mpr ⟨rfl, rfl, rfl⟩⟩

/-- C3 counterexample: on a well-formed response whose candidate list is
present but empty (the safety-filter shape), the client raises
IndexError past its boundary instead of returning a failure string. -/
theorem c3_counterexample :
    callGeminiApi "k" (fun _ => TransportResult.ok emptyCandidates) =
      Except.error PyError.indexError := rfl

/-- C4 (amended): the credential is never checked before use — the
client issues its first network request (whose URL embeds whatever
key is configured, including the empty one) unconditionally, for
every key and every transport behaviour. -/
theorem c4_requests_issued_without_credential_check (key : String)
    (transport : Nat → TransportResult) :
    1 ≤ (geminiRequests key transport).length ∧
      (geminiRequests key transport).head? = some (apiUrl key) := by
  unfold geminiRequests apiAttempts
  rcases h0 : transport 0 with _ | r0
  · simp [h0]
  · simp only [h0]
    rcases he : extractText r0 with e | t <;> simp [he]

/-- C4 counterexample: with the credential absent (the empty string,
the repository default) and the endpoint rejecting every request,
three network requests are still issued and the absence surfaces only
as a null return after the retries — not as a configuration error
before any network attempt. -/
theorem c4_counterexample :
    (geminiRequests "" allRaised).length = 3 ∧
      callGeminiApi "" allRaised = Except.ok none :=
  ⟨rfl, rfl⟩
